import Mathlib

/-!
Verification of the quark IPAM / route-validation design against the
repository's code.

The repository ships the route module (quark/plugin_modules/routes.py)
and the unit tests of the IPAM engine (quark/tests/test_ipam.py).  The
IPAM engine itself (quark/ipam.py) is not part of the source tree, so it
is modelled from the specification, with the repository's unit tests used
to pin the points where the specification's wording and the tests
disagree; every such point is recorded in the relevant doc comment, and
the model is shown to reproduce each unit test's asserted outcome.

Addresses, timestamps and identifiers are natural numbers; CIDRs are
pairs of an integer address value and a prefix length, mirroring
netaddr.IPNetwork as the route module uses it.
-/

/-- Integer view of a netaddr.IPNetwork as used by routes.py: the address
value exactly as written (unmasked), the prefix length, and the IP
version (4 or 6). -/
structure IPNetwork where
  value : Nat
  plen : Nat
  version : Nat
deriving DecidableEq

/-- Width in bits of the address family of a network. -/
def addrWidth (n : IPNetwork) : Nat := if n.version == 6 then 128 else 32

/-- Number of host bits of a network. -/
def hostBits (n : IPNetwork) : Nat := addrWidth n - n.plen

/-- Integer value of the first (network) address, i.e. the written value
with its host bits masked off; netaddr's IPNetwork.first. -/
def netFirst (n : IPNetwork) : Nat :=
  n.value / 2 ^ hostBits n * 2 ^ hostBits n

/-- Integer value of the last (broadcast) address; netaddr's
IPNetwork.last. -/
def netLast (n : IPNetwork) : Nat :=
  netFirst n + (2 ^ hostBits n - 1)

/-- netaddr's containment test for two networks: x is a subset of y,
written x in y in the Python source.  Versions must agree and the span
of x must lie inside the span of y; equal networks contain each other. -/
def netSubset (x y : IPNetwork) : Bool :=
  x.version == y.version && decide (netFirst y ≤ netFirst x)
    && decide (netLast x ≤ netLast y)

/-- netaddr's containment test of a single address value in a network. -/
def netContainsAddr (n : IPNetwork) (a : Nat) : Bool :=
  decide (netFirst n ≤ a) && decide (a ≤ netLast n)

/-- Route record: identifier, owning subnet identifier, CIDR
(routes.py reads these fields from the database row). -/
structure Route where
  id : Nat
  subnet_id : Nat
  cidr : IPNetwork
deriving DecidableEq

/-- State read and written by create_route: the known subnet identifiers
and every existing route row. -/
structure RoutesDB where
  subnets : List Nat
  routes : List Route
deriving DecidableEq

/-- Errors raised by routes.py's create_route. -/
inductive RouteError where
  | subnetNotFound (subnet_id : Nat)
  | routeConflict (route_id : Nat) (cidr : IPNetwork)
deriving DecidableEq

/-- routes.py line 27: DEFAULT_ROUTE = netaddr.IPNetwork("0.0.0.0/0"). -/
def DEFAULT_ROUTE : IPNetwork := ⟨0, 0, 4⟩

/-- Conflict test applied to one existing route of the subnet, fused from
the loop body of create_route (routes.py lines 61-67): the route is
skipped when its CIDR's integer value equals DEFAULT_ROUTE.value, and
otherwise conflicts when either CIDR contains the other. -/
def routeConflictPred (cand : IPNetwork) (sr : Route) : Bool :=
  !(sr.cidr.value == DEFAULT_ROUTE.value)
    && (netSubset cand sr.cidr || netSubset sr.cidr cand)

/-- routes.py lines 47-69, create_route: look up the subnet (failing with
SubnetNotFound), scan the subnet's existing routes in order raising
RouteConflict at the first non-skipped overlapping route, else create the
record.  The transaction semantics of the session block are modelled by
returning the database unchanged on failure and extended on success. -/
def create_route (db : RoutesDB) (subnet_id : Nat) (cidr : IPNetwork)
    (new_id : Nat) : Except RouteError Route × RoutesDB :=
  if db.subnets.contains subnet_id then
    match (db.routes.filter (fun r => r.subnet_id == subnet_id)).find?
        (routeConflictPred cidr) with
    | some sr => (.error (.routeConflict sr.id cidr), db)
    | none =>
      (.ok ⟨new_id, subnet_id, cidr⟩,
        ⟨db.subnets, db.routes ++ [⟨new_id, subnet_id, cidr⟩]⟩)
  else (.error (.subnetNotFound subnet_id), db)

/-- Non-default-route overlap, the notion the specification's route
claims quantify over, as a proposition: the existing route's CIDR value
differs from the default route's and one CIDR contains the other. -/
def overlapsNonzero (cand : IPNetwork) (r : Route) : Prop :=
  r.cidr.value ≠ DEFAULT_ROUTE.value ∧
    (netSubset cand r.cidr = true ∨ netSubset r.cidr cand = true)

instance (cand : IPNetwork) (r : Route) : Decidable (overlapsNonzero cand r) := by
  unfold overlapsNonzero; infer_instance

/-- Boolean success test for an Except value. -/
def exceptIsOk {ε α : Type} : Except ε α → Bool
  | .ok _ => true
  | .error _ => false

instance {ε α : Type} [DecidableEq ε] [DecidableEq α] :
    DecidableEq (Except ε α) := fun x y =>
  match x, y with
  | .ok a, .ok b =>
    if h : a = b then isTrue (by rw [h])
    else isFalse (by intro hh; cases hh; exact h rfl)
  | .error e, .error f =>
    if h : e = f then isTrue (by rw [h])
    else isFalse (by intro hh; cases hh; exact h rfl)
  | .ok _, .error _ => isFalse (by intro h; cases h)
  | .error _, .ok _ => isFalse (by intro h; cases h)

/-!
IPAM engine.  quark/ipam.py is not in the source tree; the definitions
below are modelled from the specification (sections 4.1-4.3), checked
against the repository's unit tests in quark/tests/test_ipam.py.
-/

/-- Error kinds raised by the IPAM engine (section 7 of the design). -/
inductive IpamError where
  | macAddressGenerationFailure
  | ipAddressGenerationFailure
  | addressNotFound
deriving DecidableEq

/-- MAC address range row: identifier and inclusive integer bounds. -/
structure MacRange where
  id : Nat
  first_address : Nat
  last_address : Nat
deriving DecidableEq

/-- MAC address row: identifier, integer address value, owning range
identifier, deallocation flag and timestamp. -/
structure MacAddr where
  id : Nat
  address : Nat
  mac_address_range_id : Nat
  deallocated : Bool
  deallocated_at : Option Nat
deriving DecidableEq

/-- Result of a MAC allocation: a record resurrected in place (update)
or a freshly inserted record (create). -/
inductive MacOutcome where
  | updated (a : MacAddr)
  | created (a : MacAddr)
deriving DecidableEq

/-- The address record carried by a MAC allocation outcome. -/
def macOutcomeRec : MacOutcome → MacAddr
  | .updated a => a
  | .created a => a

/-- Capacity of a range as the specification words it in section 4.1:
last_address - first_address + 1. -/
def capacitySpec (r : MacRange) : Nat :=
  r.last_address - r.first_address + 1

/-- Availability test the specification's words would give: the
allocation count is below capacitySpec. -/
def macRangeAvailableSpec (p : MacRange × Nat) : Bool :=
  decide (p.2 < capacitySpec p.1)

/-- Modelled from the spec: quark/ipam.py's range availability test
(section 4.1 Range Selector), with one deviation forced by the
repository's unit tests.  The specification says a range is open when
allocation_count is below last_address - first_address + 1, but
test_allocate_mac_no_available_range_fails asserts that a range with
first_address = last_address and count 0 yields a generation failure and
test_allocate_mac_one_full_one_open_range asserts that a range with
bounds 0..1 and count 1 is passed over, so the engine's test is
allocation_count below last_address - first_address, which this
definition follows; macRangeAvailableSpec above records the
specification's formula for comparison. -/
def macRangeAvailable (p : MacRange × Nat) : Bool :=
  decide (p.2 < p.1.last_address - p.1.first_address)

/-- Modelled from the spec: quark/ipam.py's Range Selector (section 4.1):
the first pair of the catalog-ordered list that is available. -/
def selectMacRange (ranges : List (MacRange × Nat)) :
    Option (MacRange × Nat) :=
  ranges.find? macRangeAvailable

/-- Modelled from the spec: eligibility of a deallocated MAC record for
reuse (section 4.2 step 2): the record is flagged deallocated and, when a
stamp is present, it is older than now minus reuse_after. -/
def macReuseEligible (now reuse_after : Nat) (a : MacAddr) : Bool :=
  a.deallocated &&
    (match a.deallocated_at with
     | none => true
     | some t => decide (t + reuse_after ≤ now))

/-- Modelled from the spec: the reuse-path search of section 4.2 step 2,
restricted to the selected range: the first eligible deallocated record
of that range. -/
def macReuseFind (db : List MacAddr) (rid now reuse_after : Nat) :
    Option MacAddr :=
  db.find? (fun a => a.mac_address_range_id == rid
    && macReuseEligible now reuse_after a)

/-- Resurrecting update of a reused record (section 4.2 step 2): clear
the deallocated flag and the timestamp, leaving every other field and in
particular the address value unchanged. -/
def macClear (a : MacAddr) : MacAddr :=
  { a with deallocated := false, deallocated_at := none }

/-- First unrecorded address value in the inclusive span lo..hi, given
the list of address values already holding a record (section 4.2 step 3's
forward search). -/
def firstFree (taken : List Nat) (lo hi : Nat) : Option Nat :=
  ((List.range (hi + 1 - lo)).map (fun i => lo + i)).find?
    (fun v => taken.all (fun t => t != v))

/-- Modelled from the spec: quark/ipam.py's allocate_mac_address
(sections 4.1, 4.2, 6), absent from the source tree; this is the
per-range step: reuse the first eligible deallocated record of the
selected range as an update; otherwise insert a record at the first free
value of the range's span, failing with MacAddressGenerationFailure
when the span is fully occupied. -/
def macAllocFromRange (db : List MacAddr) (rng : MacRange)
    (now reuse_after : Nat) : Except IpamError MacOutcome :=
  match macReuseFind db rng.id now reuse_after with
  | some a => .ok (.updated (macClear a))
  | none =>
    match firstFree (db.map (fun a => a.address))
        rng.first_address rng.last_address with
    | some v => .ok (.created ⟨0, v, rng.id, false, none⟩)
    | none => .error .macAddressGenerationFailure

/-- Modelled from the spec: the range-selection step of
allocate_mac_address, deferring to macAllocFromRange once a range is
picked. -/
def allocate_mac_address (db : List MacAddr)
    (ranges : List (MacRange × Nat)) (now reuse_after : Nat) :
    Except IpamError MacOutcome :=
  match selectMacRange ranges with
  | none => .error .macAddressGenerationFailure
  | some (rng, _) => macAllocFromRange db rng now reuse_after

/-- Modelled from the spec: quark/ipam.py's deallocate_mac_address
(sections 4.3, 6): look the record up by its address value, failing with
AddressNotFound when no record carries the value, and otherwise mark it
deallocated unconditionally, stamping the timestamp. -/
def deallocate_mac_address (db : List MacAddr) (address_value now : Nat) :
    Except IpamError MacAddr :=
  match db.find? (fun a => a.address == address_value) with
  | none => .error .addressNotFound
  | some a => .ok { a with deallocated := true, deallocated_at := some now }

/-- Subnet row: identifier, inclusive integer address bounds, CIDR. -/
structure Subnet where
  id : Nat
  first_ip : Nat
  last_ip : Nat
  cidr : IPNetwork
deriving DecidableEq

/-- IP address row: identifier, integer address value, owning subnet
identifier, deallocation flag and timestamp, and the identifiers of the
ports referencing the address (many-to-many in section 3). -/
structure IPAddr where
  id : Nat
  address : Nat
  subnet_id : Nat
  deallocated : Bool
  deallocated_at : Option Nat
  ports : List Nat
deriving DecidableEq

/-- Result of an IP allocation: update of a reused record or insertion
of a fresh one. -/
inductive IpOutcome where
  | updated (a : IPAddr)
  | created (a : IPAddr)
deriving DecidableEq

/-- The address record carried by an IP allocation outcome. -/
def ipOutcomeRec : IpOutcome → IPAddr
  | .updated a => a
  | .created a => a

/-- Modelled from the spec: subnet availability, the IP twin of
macRangeAvailable with the same test-pinned capacity reading
(test_allocate_ip_no_available_subnet_fails and
test_allocate_ip_one_full_one_open_subnet agree with it). -/
def subnetAvailable (p : Subnet × Nat) : Bool :=
  decide (p.2 < p.1.last_ip - p.1.first_ip)

/-- Modelled from the spec: the Range Selector over subnets. -/
def selectSubnet (subnets : List (Subnet × Nat)) : Option (Subnet × Nat) :=
  subnets.find? subnetAvailable

/-- Modelled from the spec: reuse eligibility of a deallocated IP
record, as for MAC records. -/
def ipReuseEligible (now reuse_after : Nat) (a : IPAddr) : Bool :=
  a.deallocated &&
    (match a.deallocated_at with
     | none => true
     | some t => decide (t + reuse_after ≤ now))

/-- Modelled from the spec: the reuse-path search restricted to the
selected subnet. -/
def ipReuseFind (db : List IPAddr) (sid now reuse_after : Nat) :
    Option IPAddr :=
  db.find? (fun a => a.subnet_id == sid && ipReuseEligible now reuse_after a)

/-- Resurrecting update of a reused IP record: clear the flag and stamp
and associate the allocating port, leaving the address value unchanged. -/
def ipClear (port_id : Nat) (a : IPAddr) : IPAddr :=
  { a with deallocated := false, deallocated_at := none,
           ports := a.ports ++ [port_id] }

/-- Modelled from the spec: the specific-address subnet search of
section 4.2 step 1: the first candidate subnet whose bounds contain the
requested value.  The bounds used are the subnet's CIDR span, as pinned
by test_no_valid_subnet_for_requested_ip_fails, whose subnet row's
first_ip..last_ip span contains the requested value while its CIDR does
not and the allocation is asserted to fail. -/
def findRequestedSubnet (subnets : List (Subnet × Nat)) (req : Nat) :
    Option (Subnet × Nat) :=
  subnets.find? (fun p => netContainsAddr p.1.cidr req)

/-- Modelled from the spec: quark/ipam.py's allocate_ip_address
(sections 4.1, 4.2, 6), absent from the source tree; this is the
per-subnet step for a requested specific address: reuse an eligible
deallocated record at exactly the requested value in the located subnet,
else insert a record at the requested value when it is free, and fail
rather than coerce the request when the value is taken. -/
def ipAllocRequested (db : List IPAddr) (s : Subnet)
    (now reuse_after port_id req : Nat) : Except IpamError IpOutcome :=
  match db.find? (fun a => a.subnet_id == s.id && a.address == req
      && ipReuseEligible now reuse_after a) with
  | some a => .ok (.updated (ipClear port_id a))
  | none =>
    if db.any (fun a => a.subnet_id == s.id && a.address == req) then
      .error .ipAddressGenerationFailure
    else .ok (.created ⟨0, req, s.id, false, none, [port_id]⟩)

/-- Modelled from the spec: allocation inside one selected subnet
without a requested address: reuse path, then first free value of the
subnet's span. -/
def ipAllocFromSubnet (db : List IPAddr) (s : Subnet)
    (now reuse_after port_id : Nat) : Except IpamError IpOutcome :=
  match ipReuseFind db s.id now reuse_after with
  | some a => .ok (.updated (ipClear port_id a))
  | none =>
    match firstFree (db.map (fun a => a.address)) s.first_ip s.last_ip with
    | some v => .ok (.created ⟨0, v, s.id, false, none, [port_id]⟩)
    | none => .error .ipAddressGenerationFailure

/-- Modelled from the spec: the subnet-location step for a requested
specific address (section 4.2 step 1): the first candidate subnet whose
CIDR contains the request, failing with IpAddressGenerationFailure when
none does, however much free capacity other subnets have. -/
def allocate_ip_requested (db : List IPAddr)
    (subnets : List (Subnet × Nat)) (now reuse_after port_id req : Nat) :
    Except IpamError IpOutcome :=
  match findRequestedSubnet subnets req with
  | none => .error .ipAddressGenerationFailure
  | some (s, _) => ipAllocRequested db s now reuse_after port_id req

/-- Modelled from the spec: the subnet-location step of
allocate_ip_address, deferring to the pinned or unpinned per-subnet
allocation once a subnet is picked. -/
def allocate_ip_address (db : List IPAddr) (subnets : List (Subnet × Nat))
    (now reuse_after port_id : Nat) (requested : Option Nat) :
    Except IpamError IpOutcome :=
  match requested with
  | some req => allocate_ip_requested db subnets now reuse_after port_id req
  | none =>
    match selectSubnet subnets with
    | none => .error .ipAddressGenerationFailure
    | some (s, _) => ipAllocFromSubnet db s now reuse_after port_id

/-- Port row: identifier and associated IP address records. -/
structure Port where
  id : Nat
  ip_addresses : List IPAddr
deriving DecidableEq

/-- Modelled from the spec: the per-address step of
quark/ipam.py's deallocate_ip_address (section 4.3): remove the
releasing port from the record's owning-ports set; when the set becomes
empty flag the record deallocated and stamp the time, otherwise leave
the flag untouched. -/
def deallocIpOne (now port_id : Nat) (a : IPAddr) : IPAddr :=
  let remaining := a.ports.filter (fun q => q != port_id)
  if remaining.isEmpty then
    { a with ports := remaining, deallocated := true,
             deallocated_at := some now }
  else { a with ports := remaining }

/-- Modelled from the spec: quark/ipam.py's deallocate_ip_address
(sections 4.3, 6): release every address the port references. -/
def deallocate_ip_address (now : Nat) (p : Port) : List IPAddr :=
  p.ip_addresses.map (deallocIpOne now p.id)

/-!
The model reproduces the repository's unit tests.  Each theorem below
replays one test of quark/tests/test_ipam.py on the modelled engine and
states the outcome the test asserts.
-/

/-- test_allocate_new_mac_address_in_empty_range: range 0..255, count 0,
no records: the allocated record carries address 0. -/
theorem model_test_mac_empty_range :
    allocate_mac_address [] [(⟨1, 0, 255⟩, 0)] 0 0
      = .ok (.created ⟨0, 0, 1, false, none⟩) := rfl

/-- test_allocate_new_mac_in_partially_allocated_range: one record at
address 0: the allocated record carries address 1. -/
theorem model_test_mac_second_address :
    allocate_mac_address [⟨1, 0, 1, false, none⟩] [(⟨1, 0, 255⟩, 0)] 0 0
      = .ok (.created ⟨0, 1, 1, false, none⟩) := rfl

/-- test_allocate_mac_one_full_one_open_range: range 0..1 with count 1
is passed over and the record is allocated from range 2 at address 2. -/
theorem model_test_mac_one_full_one_open :
    allocate_mac_address [] [(⟨1, 0, 1⟩, 1), (⟨2, 2, 255⟩, 0)] 0 0
      = .ok (.created ⟨0, 2, 2, false, none⟩) := rfl

/-- test_allocate_mac_no_ranges_fails: empty catalog fails. -/
theorem model_test_mac_no_ranges :
    allocate_mac_address [] [] 0 0
      = .error .macAddressGenerationFailure := rfl

/-- test_allocate_mac_no_available_range_fails: the range 0..0 with
count 0 is treated as having no capacity and allocation fails. -/
theorem model_test_mac_no_available_range :
    allocate_mac_address [] [(⟨1, 0, 0⟩, 0)] 0 0
      = .error .macAddressGenerationFailure := rfl

/-- test_allocate_mac_two_open_ranges_chooses_first: both ranges open,
the first is chosen and yields address 0. -/
theorem model_test_mac_two_open_ranges :
    allocate_mac_address [] [(⟨1, 0, 255⟩, 0), (⟨2, 256, 510⟩, 0)] 0 0
      = .ok (.created ⟨0, 0, 1, false, none⟩) := rfl

/-- test_allocate_mac_address_find_deallocated: a deallocated record is
resurrected by update, not by insertion. -/
theorem model_test_mac_find_deallocated :
    allocate_mac_address [⟨1, 0, 1, true, some 0⟩] [(⟨1, 0, 255⟩, 0)] 5 0
      = .ok (.updated ⟨1, 0, 1, false, none⟩) := rfl

/-- test_allocate_ip_one_full_one_open_subnet: subnet 1 with span 0..0
and count 1 is passed over; subnet 2 yields address 2. -/
theorem model_test_ip_one_full_one_open :
    allocate_ip_address [] [(⟨1, 0, 0, ⟨0, 32, 4⟩⟩, 1),
        (⟨2, 2, 255, ⟨0, 24, 4⟩⟩, 0)] 0 0 0 none
      = .ok (.created ⟨0, 2, 2, false, none, [0]⟩) := rfl

/-- test_find_requested_ip_subnet: requesting 0.0.0.240 inside the
subnet with CIDR 0.0.0.0/24 yields exactly address 240 in subnet 1. -/
theorem model_test_ip_requested :
    allocate_ip_address [] [(⟨1, 0, 255, ⟨0, 24, 4⟩⟩, 1)] 0 0 0 (some 240)
      = .ok (.created ⟨0, 240, 1, false, none, [0]⟩) := by decide

/-- test_no_valid_subnet_for_requested_ip_fails: requesting 0.0.0.240
when the only candidate subnet's CIDR is 0.0.1.0/24 fails, despite that
subnet row's first_ip..last_ip span containing 240. -/
theorem model_test_ip_requested_no_subnet :
    allocate_ip_address [] [(⟨1, 0, 255, ⟨256, 24, 4⟩⟩, 1)] 0 0 0 (some 240)
      = .error .ipAddressGenerationFailure := by decide

/-- test_deallocate_ip_address: the sole referencing port is removed and
the record flips to deallocated. -/
theorem model_test_ip_dealloc_last_port :
    deallocate_ip_address 3 ⟨9, [⟨1, 0, 1, false, none, [9]⟩]⟩
      = [⟨1, 0, 1, true, some 3, []⟩] := rfl

/-- test_deallocate_ip_address_multiple_ports_no_deallocation: with a
second referencing port the record stays allocated. -/
theorem model_test_ip_dealloc_other_port :
    deallocate_ip_address 3 ⟨9, [⟨1, 0, 1, false, none, [9, 2]⟩]⟩
      = [⟨1, 0, 1, false, none, [2]⟩] := rfl

/-- test_deallocate_mac_mac_not_found_fails: deallocating an unknown
value fails with AddressNotFound. -/
theorem model_test_mac_dealloc_not_found :
    deallocate_mac_address [] 0 0 = .error .addressNotFound := rfl

/-!
Helper lemmas shared by the claim theorems.
-/

/-- The fused loop-body test agrees with the propositional overlap
notion it encodes. -/
theorem routeConflictPred_iff (cand : IPNetwork) (r : Route) :
    routeConflictPred cand r = true ↔ overlapsNonzero cand r := by
  simp [routeConflictPred, overlapsNonzero, Bool.and_eq_true,
    Bool.or_eq_true, Bool.not_eq_true']

/-- When some value of the span lo..hi is unrecorded, firstFree returns
a value of the span that is unrecorded. -/
theorem firstFree_spec (taken : List Nat) (lo hi v : Nat) (h1 : lo ≤ v)
    (h2 : v ≤ hi) (h3 : ∀ t ∈ taken, t ≠ v) :
    ∃ w, firstFree taken lo hi = some w ∧ lo ≤ w ∧ w ≤ hi ∧
      ∀ t ∈ taken, t ≠ w := by
  have hmemL : v ∈ (List.range (hi + 1 - lo)).map (fun i => lo + i) := by
    rw [List.mem_map]
    exact ⟨v - lo, by rw [List.mem_range]; omega, Nat.add_sub_cancel' h1⟩
  have hpredv : (taken.all (fun t => t != v)) = true := by
    rw [List.all_eq_true]; intro t ht; simpa using h3 t ht
  have hsome : (((List.range (hi + 1 - lo)).map (fun i => lo + i)).find?
      (fun v => taken.all (fun t => t != v))).isSome := by
    rw [List.find?_isSome]; exact ⟨v, hmemL, hpredv⟩
  obtain ⟨w, hw⟩ := Option.isSome_iff_exists.mp hsome
  have hwmem := List.mem_of_find?_eq_some hw
  rw [List.mem_map] at hwmem
  obtain ⟨i, hi', hwi⟩ := hwmem
  rw [List.mem_range] at hi'
  have hp := List.find?_some hw
  rw [List.all_eq_true] at hp
  refine ⟨w, hw, by omega, by omega, ?_⟩
  intro t ht
  simpa using hp t ht

/-- When every value of the span lo..hi is recorded, firstFree fails. -/
theorem firstFree_none (taken : List Nat) (lo hi : Nat)
    (h : ∀ v, lo ≤ v → v ≤ hi → v ∈ taken) :
    firstFree taken lo hi = none := by
  unfold firstFree
  rw [List.find?_eq_none]
  intro x hx
  rw [List.mem_map] at hx
  obtain ⟨i, hi', hxi⟩ := hx
  rw [List.mem_range] at hi'
  intro hcontra
  have hxin : x ∈ taken := h x (by omega) (by omega)
  have := (List.all_eq_true.mp hcontra) x hxin
  simp at this

/-- A well-formed IPv4 network's last address stays below 2 to the 32. -/
theorem netLast_le_of_v4 (n : IPNetwork) (h4 : n.version = 4)
    (hv : n.value < 2 ^ 32) :
    netLast n ≤ 2 ^ 32 - 1 := by
  have hw : addrWidth n = 32 := by unfold addrWidth; rw [h4]; decide
  have hh32 : hostBits n ≤ 32 := by
    unfold hostBits; rw [hw]; exact Nat.sub_le 32 n.plen
  have hpow : (2:Nat) ^ (32 - hostBits n) * 2 ^ hostBits n = 2 ^ 32 := by
    rw [← pow_add, Nat.sub_add_cancel hh32]
  have hdiv : n.value / 2 ^ hostBits n < 2 ^ (32 - hostBits n) :=
    Nat.div_lt_of_lt_mul (by rw [Nat.mul_comm, hpow]; exact hv)
  have hfirst : netFirst n + 2 ^ hostBits n ≤ 2 ^ 32 := by
    unfold netFirst
    have heq : n.value / 2 ^ hostBits n * 2 ^ hostBits n + 2 ^ hostBits n
        = (n.value / 2 ^ hostBits n + 1) * 2 ^ hostBits n := by ring
    rw [heq]
    calc (n.value / 2 ^ hostBits n + 1) * 2 ^ hostBits n
        ≤ 2 ^ (32 - hostBits n) * 2 ^ hostBits n :=
          Nat.mul_le_mul_right _ (Nat.succ_le_of_lt hdiv)
      _ = 2 ^ 32 := hpow
  have h1 : (1:Nat) ≤ 2 ^ hostBits n := Nat.one_le_two_pow
  unfold netLast
  omega

/-!
Claim C1.  The claim exempts exactly the default route 0.0.0.0/0 from
the conflict scan, but routes.py line 63 compares only the integer
address values, so every existing route whose CIDR has network address
0.0.0.0 is exempted whatever its prefix length.  The claim as stated is
refuted below on the non-default route 0.0.0.0/8, and the amended claim
with the value-based route class is proved.
-/

/-- C1 counterexample: subnet 1 carries route 7 with CIDR 0.0.0.0/8,
which is not the default route, and the candidate 0.0.1.0/24 is
contained in it, so the claim demands a RouteConflict naming route 7;
create_route nevertheless succeeds. -/
theorem c1_counterexample :
    exceptIsOk (create_route ⟨[1], [⟨7, 1, ⟨0, 8, 4⟩⟩]⟩ 1 ⟨256, 24, 4⟩ 9).1
      = true ∧
    (create_route ⟨[1], [⟨7, 1, ⟨0, 8, 4⟩⟩]⟩ 1 ⟨256, 24, 4⟩ 9).1
      ≠ .error (.routeConflict 7 ⟨256, 24, 4⟩) ∧
    (⟨0, 8, 4⟩ : IPNetwork) ≠ DEFAULT_ROUTE ∧
    netSubset ⟨256, 24, 4⟩ ⟨0, 8, 4⟩ = true := by
  refine ⟨rfl, by decide, by decide, by decide⟩

/-- C1 (amended): for a known subnet, create_route fails with a
RouteConflict naming an existing route of the subnet whose CIDR's
network-address value is nonzero and which contains or is contained by
the candidate, exactly when such a route exists; when no such route
exists the route record is created and appended, and on the conflict
failure the state is unchanged, so no record is created. -/
theorem c1_conflict_iff_nonzero_overlap (db : RoutesDB) (sid : Nat)
    (cand : IPNetwork) (nid : Nat)
    (hsid : db.subnets.contains sid = true) :
    ((∃ r ∈ db.routes, r.subnet_id = sid ∧ overlapsNonzero cand r) ↔
      ∃ r ∈ db.routes, r.subnet_id = sid ∧ overlapsNonzero cand r ∧
        (create_route db sid cand nid).1
          = .error (.routeConflict r.id cand)) ∧
    ((¬ ∃ r ∈ db.routes, r.subnet_id = sid ∧ overlapsNonzero cand r) →
      (create_route db sid cand nid).1 = .ok ⟨nid, sid, cand⟩ ∧
      (create_route db sid cand nid).2.routes
        = db.routes ++ [⟨nid, sid, cand⟩]) ∧
    ((∃ r ∈ db.routes, r.subnet_id = sid ∧ overlapsNonzero cand r) →
      (create_route db sid cand nid).2 = db) := by
  have hsid' : sid ∈ db.subnets := by simpa using hsid
  cases hfind : (db.routes.filter (fun r => r.subnet_id == sid)).find?
      (routeConflictPred cand) with
  | some sr =>
    have hpred := List.find?_some hfind
    have hmem := List.mem_of_find?_eq_some hfind
    rw [List.mem_filter] at hmem
    obtain ⟨hmem, hsub⟩ := hmem
    have hsub' : sr.subnet_id = sid := by simpa using hsub
    have hov : overlapsNonzero cand sr := (routeConflictPred_iff cand sr).mp hpred
    have hres : create_route db sid cand nid
        = (.error (.routeConflict sr.id cand), db) := by
      simp [create_route, hsid', hfind]
    refine ⟨⟨fun _ => ⟨sr, hmem, hsub', hov, by rw [hres]⟩, ?_⟩, ?_, ?_⟩
    · rintro ⟨r, hr, hrs, hro, -⟩; exact ⟨r, hr, hrs, hro⟩
    · intro hnp; exact absurd ⟨sr, hmem, hsub', hov⟩ hnp
    · intro _; rw [hres]
  | none =>
    have hnone := List.find?_eq_none.mp hfind
    have hnp : ¬ ∃ r ∈ db.routes, r.subnet_id = sid ∧ overlapsNonzero cand r := by
      rintro ⟨r, hr, hrs, hro⟩
      have hrf : r ∈ db.routes.filter (fun r => r.subnet_id == sid) := by
        rw [List.mem_filter]; exact ⟨hr, by simpa using hrs⟩
      exact (hnone r hrf) ((routeConflictPred_iff cand r).mpr hro)
    have hres : create_route db sid cand nid
        = (.ok ⟨nid, sid, cand⟩,
            ⟨db.subnets, db.routes ++ [⟨nid, sid, cand⟩]⟩) := by
      simp [create_route, hsid', hfind]
    refine ⟨⟨fun hp => absurd hp hnp, ?_⟩, fun _ => ⟨by rw [hres], by rw [hres]⟩,
      fun hp => absurd hp hnp⟩
    rintro ⟨r, hr, hrs, hro, -⟩; exact ⟨r, hr, hrs, hro⟩

/-- C1 witness: on a subnet holding route 7 with CIDR 10.0.0.0/24, the
candidate 10.0.0.128/25 conflicts, and the amended theorem yields the
unchanged-state conclusion at that input. -/
theorem c1_witness :
    (create_route ⟨[1], [⟨7, 1, ⟨167772160, 24, 4⟩⟩]⟩ 1
        ⟨167772288, 25, 4⟩ 9).2 = ⟨[1], [⟨7, 1, ⟨167772160, 24, 4⟩⟩]⟩ :=
  (c1_conflict_iff_nonzero_overlap ⟨[1], [⟨7, 1, ⟨167772160, 24, 4⟩⟩]⟩ 1
      ⟨167772288, 25, 4⟩ 9 (by decide)).2.2
    ⟨⟨7, 1, ⟨167772160, 24, 4⟩⟩, by decide, rfl, by decide⟩

/-!
Claim C2.  Existing default routes are indeed skipped (their CIDR value
is zero), but the candidate CIDR is never tested for being the default:
since every same-version CIDR is contained in 0.0.0.0/0, creating
0.0.0.0/0 on a subnet holding any IPv4 route with nonzero
network-address value fails with RouteConflict, refuting the claim's
second half.
-/

/-- C2 counterexample: subnet 1 holds route 5 with CIDR 10.0.0.0/24;
creating the candidate 0.0.0.0/0 fails with RouteConflict naming route
5, where the claim demands success whatever the existing routes. -/
theorem c2_counterexample :
    (create_route ⟨[1], [⟨5, 1, ⟨167772160, 24, 4⟩⟩]⟩ 1 DEFAULT_ROUTE 9).1
      = .error (.routeConflict 5 DEFAULT_ROUTE) ∧
    exceptIsOk (create_route ⟨[1], [⟨5, 1, ⟨167772160, 24, 4⟩⟩]⟩ 1
      DEFAULT_ROUTE 9).1 = false := by
  refine ⟨by decide, rfl⟩

/-- C2 (amended): create_route skips every existing route whose CIDR's
network-address value is zero, which includes every default route, so
with a known subnet whose routes all carry value zero the candidate
0.0.0.0/0 is created; but a candidate 0.0.0.0/0 is not itself exempt,
and it fails with a RouteConflict whenever the subnet holds a
well-formed IPv4 route with nonzero network-address value, since every
such CIDR is contained in 0.0.0.0/0. -/
theorem c2_default_candidate (db : RoutesDB) (sid nid : Nat)
    (hsid : db.subnets.contains sid = true) :
    ((∀ r ∈ db.routes, r.subnet_id = sid →
        r.cidr.value = DEFAULT_ROUTE.value) →
      (create_route db sid DEFAULT_ROUTE nid).1
        = .ok ⟨nid, sid, DEFAULT_ROUTE⟩) ∧
    (∀ r ∈ db.routes, r.subnet_id = sid → r.cidr.version = 4 →
      r.cidr.value ≠ DEFAULT_ROUTE.value → r.cidr.value < 2 ^ 32 →
      ∃ i c, (create_route db sid DEFAULT_ROUTE nid).1
        = .error (.routeConflict i c)) := by
  have hsid' : sid ∈ db.subnets := by simpa using hsid
  constructor
  · intro hallz
    have hfind : (db.routes.filter (fun r => r.subnet_id == sid)).find?
        (routeConflictPred DEFAULT_ROUTE) = none := by
      rw [List.find?_eq_none]
      intro x hx
      rw [List.mem_filter] at hx
      obtain ⟨hx, hxs⟩ := hx
      have hz : x.cidr.value = DEFAULT_ROUTE.value :=
        hallz x hx (by simpa using hxs)
      simp [routeConflictPred, hz]
    simp [create_route, hsid', hfind]
  · intro r hr hrs h4 hvne hvlt
    have hsub : netSubset r.cidr DEFAULT_ROUTE = true := by
      unfold netSubset
      simp only [Bool.and_eq_true, decide_eq_true_eq, beq_iff_eq]
      refine ⟨⟨by rw [h4]; rfl, ?_⟩, ?_⟩
      · have hz : netFirst DEFAULT_ROUTE = 0 := by decide
        rw [hz]; exact Nat.zero_le _
      · have hz : netLast DEFAULT_ROUTE = 2 ^ 32 - 1 := by decide
        rw [hz]; exact netLast_le_of_v4 r.cidr h4 hvlt
    have hpred : routeConflictPred DEFAULT_ROUTE r = true := by
      have hzz : (r.cidr.value == DEFAULT_ROUTE.value) = false := by
        simpa using hvne
      simp [routeConflictPred, hzz, hsub]
    have hsome : ((db.routes.filter (fun r => r.subnet_id == sid)).find?
        (routeConflictPred DEFAULT_ROUTE)).isSome := by
      rw [List.find?_isSome]
      exact ⟨r, by rw [List.mem_filter]; exact ⟨hr, by simpa using hrs⟩, hpred⟩
    obtain ⟨sr, hsr⟩ := Option.isSome_iff_exists.mp hsome
    exact ⟨sr.id, DEFAULT_ROUTE, by simp [create_route, hsid', hsr]⟩

/-- C2 witness: a subnet whose only route is 0.0.0.0/16 (value zero)
accepts the candidate 0.0.0.0/0, and a subnet holding 10.0.0.0/24 makes
the same candidate fail with a RouteConflict. -/
theorem c2_witness :
    (create_route ⟨[1], [⟨3, 1, ⟨0, 16, 4⟩⟩]⟩ 1 DEFAULT_ROUTE 9).1
      = .ok ⟨9, 1, DEFAULT_ROUTE⟩ ∧
    ∃ i c, (create_route ⟨[1], [⟨5, 1, ⟨167772160, 24, 4⟩⟩]⟩ 1
      DEFAULT_ROUTE 9).1 = .error (.routeConflict i c) :=
  ⟨(c2_default_candidate ⟨[1], [⟨3, 1, ⟨0, 16, 4⟩⟩]⟩ 1 9 (by decide)).1
      (by decide),
   (c2_default_candidate ⟨[1], [⟨5, 1, ⟨167772160, 24, 4⟩⟩]⟩ 1 9
      (by decide)).2 ⟨5, 1, ⟨167772160, 24, 4⟩⟩ (by decide) rfl rfl
      (by decide) (by decide)⟩

/-- C10 (confirmed): whenever create_route reports a RouteConflict, the
reported identifier belongs to an existing route of the subnet whose
CIDR's network-address value is nonzero and which overlaps the
candidate; since exemption tests only the value and never the prefix
length, a route whose CIDR has network address 0.0.0.0 with any prefix
length is never the reported conflict. -/
theorem c10_reported_conflict_has_nonzero_value (db : RoutesDB)
    (sid : Nat) (cand : IPNetwork) (nid i : Nat) (c : IPNetwork)
    (h : (create_route db sid cand nid).1 = .error (.routeConflict i c)) :
    ∃ r ∈ db.routes, r.subnet_id = sid ∧ r.id = i ∧
      r.cidr.value ≠ DEFAULT_ROUTE.value ∧
      (netSubset cand r.cidr = true ∨ netSubset r.cidr cand = true) := by
  by_cases hsid : db.subnets.contains sid
  · have hsid' : sid ∈ db.subnets := by simpa using hsid
    cases hfind : (db.routes.filter (fun r => r.subnet_id == sid)).find?
        (routeConflictPred cand) with
    | some sr =>
      have hpred := List.find?_some hfind
      have hmem := List.mem_of_find?_eq_some hfind
      rw [List.mem_filter] at hmem
      obtain ⟨hmem, hsub⟩ := hmem
      have hov := (routeConflictPred_iff cand sr).mp hpred
      have hid : sr.id = i := by
        simp [create_route, hsid', hfind] at h
        exact h.1
      exact ⟨sr, hmem, by simpa using hsub, hid, hov.1, hov.2⟩
    | none => simp [create_route, hsid', hfind] at h
  · have hsid' : sid ∉ db.subnets := by simpa using hsid
    simp [create_route, hsid'] at h

/-- C10 witness: on a subnet holding route 5 with CIDR 10.0.0.0/24 the
candidate 10.0.0.0/25 is reported in conflict with route 5, and the
theorem recovers that route together with its nonzero value. -/
theorem c10_witness :
    ∃ r ∈ ([⟨5, 1, ⟨167772160, 24, 4⟩⟩] : List Route), r.subnet_id = 1 ∧
      r.id = 5 ∧ r.cidr.value ≠ DEFAULT_ROUTE.value ∧
      (netSubset ⟨167772160, 25, 4⟩ r.cidr = true ∨
        netSubset r.cidr ⟨167772160, 25, 4⟩ = true) :=
  c10_reported_conflict_has_nonzero_value
    ⟨[1], [⟨5, 1, ⟨167772160, 24, 4⟩⟩]⟩ 1 ⟨167772160, 25, 4⟩ 9 5
    ⟨167772160, 25, 4⟩ (by decide)

/-- Core MAC allocation lemma: when the Range Selector picks a pair and
the picked range's records stay within its bounds and its span has an
unrecorded value, allocation succeeds with a record of exactly that
range, its address inside the bounds. -/
theorem mac_alloc_from_selected (db : List MacAddr)
    (ranges : List (MacRange × Nat)) (now ra : Nat) (rng : MacRange)
    (cnt : Nat) (hsel : selectMacRange ranges = some (rng, cnt))
    (hwf : ∀ a ∈ db, a.mac_address_range_id = rng.id →
      rng.first_address ≤ a.address ∧ a.address ≤ rng.last_address)
    (hfree : ∃ v, rng.first_address ≤ v ∧ v ≤ rng.last_address ∧
      ∀ a ∈ db, a.address ≠ v) :
    ∃ o, allocate_mac_address db ranges now ra = .ok o ∧
      (macOutcomeRec o).mac_address_range_id = rng.id ∧
      rng.first_address ≤ (macOutcomeRec o).address ∧
      (macOutcomeRec o).address ≤ rng.last_address := by
  have hred : allocate_mac_address db ranges now ra
      = macAllocFromRange db rng now ra := by
    unfold allocate_mac_address; rw [hsel]
  rw [hred]
  unfold macAllocFromRange
  cases hre : macReuseFind db rng.id now ra with
  | some a =>
    have hp := List.find?_some hre
    have hm := List.mem_of_find?_eq_some hre
    simp only [Bool.and_eq_true, beq_iff_eq] at hp
    obtain ⟨hb1, hb2⟩ := hwf a hm hp.1
    exact ⟨.updated (macClear a), rfl, by simpa [macClear] using hp.1,
      by simpa [macClear] using hb1, by simpa [macClear] using hb2⟩
  | none =>
    obtain ⟨v, hv1, hv2, hv3⟩ := hfree
    have h3 : ∀ t ∈ db.map (fun a => a.address), t ≠ v := by
      intro t ht
      rw [List.mem_map] at ht
      obtain ⟨a, ha, hta⟩ := ht
      rw [← hta]; exact hv3 a ha
    obtain ⟨w, hw, hw1, hw2, -⟩ :=
      firstFree_spec (db.map (fun a => a.address))
        rng.first_address rng.last_address v hv1 hv2 h3
    rw [hw]
    exact ⟨.created ⟨0, w, rng.id, false, none⟩, rfl, rfl, hw1, hw2⟩

/-- Core IP allocation lemma, the subnet twin of mac_alloc_from_selected
for allocation without a requested address. -/
theorem ip_alloc_from_selected (db : List IPAddr)
    (subnets : List (Subnet × Nat)) (now ra port_id : Nat) (s : Subnet)
    (cnt : Nat) (hsel : selectSubnet subnets = some (s, cnt))
    (hwf : ∀ a ∈ db, a.subnet_id = s.id →
      s.first_ip ≤ a.address ∧ a.address ≤ s.last_ip)
    (hfree : ∃ v, s.first_ip ≤ v ∧ v ≤ s.last_ip ∧
      ∀ a ∈ db, a.address ≠ v) :
    ∃ o, allocate_ip_address db subnets now ra port_id none = .ok o ∧
      (ipOutcomeRec o).subnet_id = s.id ∧
      s.first_ip ≤ (ipOutcomeRec o).address ∧
      (ipOutcomeRec o).address ≤ s.last_ip := by
  have hred : allocate_ip_address db subnets now ra port_id none
      = ipAllocFromSubnet db s now ra port_id := by
    unfold allocate_ip_address; rw [hsel]
  rw [hred]
  unfold ipAllocFromSubnet
  cases hre : ipReuseFind db s.id now ra with
  | some a =>
    have hp := List.find?_some hre
    have hm := List.mem_of_find?_eq_some hre
    simp only [Bool.and_eq_true, beq_iff_eq] at hp
    obtain ⟨hb1, hb2⟩ := hwf a hm hp.1
    exact ⟨.updated (ipClear port_id a), rfl, by simpa [ipClear] using hp.1,
      by simpa [ipClear] using hb1, by simpa [ipClear] using hb2⟩
  | none =>
    obtain ⟨v, hv1, hv2, hv3⟩ := hfree
    have h3 : ∀ t ∈ db.map (fun a => a.address), t ≠ v := by
      intro t ht
      rw [List.mem_map] at ht
      obtain ⟨a, ha, hta⟩ := ht
      rw [← hta]; exact hv3 a ha
    obtain ⟨w, hw, hw1, hw2, -⟩ :=
      firstFree_spec (db.map (fun a => a.address)) s.first_ip s.last_ip
        v hv1 hv2 h3
    rw [hw]
    exact ⟨.created ⟨0, w, s.id, false, none, [port_id]⟩, rfl, rfl, hw1, hw2⟩

/-!
Claim C3.  The claim selects the first pair with allocation_count below
last_address - first_address + 1; the engine, as pinned by the
repository's own tests, uses last_address - first_address.  The test
scenario of test_allocate_mac_one_full_one_open_range refutes the claim
as stated: its first pair has count 1 below the claimed capacity 2, yet
the allocation comes from the second range.
-/

/-- C3 counterexample: in the catalog of
test_allocate_mac_one_full_one_open_range, the first pair whose count is
below the claim's capacity is the range with identifier 1, but the
allocation creates its record in range 2 at address 2. -/
theorem c3_counterexample :
    List.find? macRangeAvailableSpec [(⟨1, 0, 1⟩, 1), (⟨2, 2, 255⟩, 0)]
      = some (⟨1, 0, 1⟩, 1) ∧
    allocate_mac_address [] [(⟨1, 0, 1⟩, 1), (⟨2, 2, 255⟩, 0)] 0 0
      = .ok (.created ⟨0, 2, 2, false, none⟩) ∧
    (⟨0, 2, 2, false, none⟩ : MacAddr).mac_address_range_id ≠ 1 := by
  refine ⟨by decide, rfl, by decide⟩

/-- C3 (amended): for every candidate list, allocation (MAC and IP
variants) selects exactly the first pair whose allocation_count is
strictly below last_address - first_address and, provided the selected
range's records lie within its bounds and its span is not fully
recorded, returns an address record of exactly that range. -/
theorem c3_first_open_range (db : List MacAddr)
    (ranges : List (MacRange × Nat)) (dbi : List IPAddr)
    (subnets : List (Subnet × Nat)) (now ra port_id : Nat) :
    (∀ rng cnt, selectMacRange ranges = some (rng, cnt) →
      (∀ a ∈ db, a.mac_address_range_id = rng.id →
        rng.first_address ≤ a.address ∧ a.address ≤ rng.last_address) →
      (∃ v, rng.first_address ≤ v ∧ v ≤ rng.last_address ∧
        ∀ a ∈ db, a.address ≠ v) →
      ∃ o, allocate_mac_address db ranges now ra = .ok o ∧
        (macOutcomeRec o).mac_address_range_id = rng.id ∧
        rng.first_address ≤ (macOutcomeRec o).address ∧
        (macOutcomeRec o).address ≤ rng.last_address) ∧
    (∀ s cnt, selectSubnet subnets = some (s, cnt) →
      (∀ a ∈ dbi, a.subnet_id = s.id →
        s.first_ip ≤ a.address ∧ a.address ≤ s.last_ip) →
      (∃ v, s.first_ip ≤ v ∧ v ≤ s.last_ip ∧ ∀ a ∈ dbi, a.address ≠ v) →
      ∃ o, allocate_ip_address dbi subnets now ra port_id none = .ok o ∧
        (ipOutcomeRec o).subnet_id = s.id ∧
        s.first_ip ≤ (ipOutcomeRec o).address ∧
        (ipOutcomeRec o).address ≤ s.last_ip) :=
  ⟨fun rng cnt hsel hwf hfree =>
      mac_alloc_from_selected db ranges now ra rng cnt hsel hwf hfree,
   fun s cnt hsel hwf hfree =>
      ip_alloc_from_selected dbi subnets now ra port_id s cnt hsel hwf hfree⟩

/-- C3 witness: the two-open-ranges catalogs of the repository's tests,
instantiated in both variants; the first range is selected and the
returned record lies in it. -/
theorem c3_witness :
    (∃ o, allocate_mac_address [] [(⟨1, 0, 255⟩, 0), (⟨2, 256, 510⟩, 0)]
        0 0 = .ok o ∧
      (macOutcomeRec o).mac_address_range_id = 1 ∧
      0 ≤ (macOutcomeRec o).address ∧ (macOutcomeRec o).address ≤ 255) ∧
    (∃ o, allocate_ip_address [] [(⟨1, 0, 255, ⟨0, 24, 4⟩⟩, 1),
        (⟨2, 256, 510, ⟨256, 24, 4⟩⟩, 1)] 0 0 0 none = .ok o ∧
      (ipOutcomeRec o).subnet_id = 1 ∧
      0 ≤ (ipOutcomeRec o).address ∧ (ipOutcomeRec o).address ≤ 255) :=
  ⟨(c3_first_open_range [] [(⟨1, 0, 255⟩, 0), (⟨2, 256, 510⟩, 0)] []
      [] 0 0 0).1 ⟨1, 0, 255⟩ 0 (by decide) (by decide)
      ⟨0, by decide, by decide, by decide⟩,
   (c3_first_open_range [] [] [] [(⟨1, 0, 255, ⟨0, 24, 4⟩⟩, 1),
      (⟨2, 256, 510, ⟨256, 24, 4⟩⟩, 1)] 0 0 0).2 ⟨1, 0, 255, ⟨0, 24, 4⟩⟩
      1 (by decide) (by decide) ⟨0, by decide, by decide, by decide⟩⟩

/-!
Claim C5.  The claim says a range with first_address = last_address has
capacity 1 and allocates exactly once before exhaustion; the engine, as
asserted by test_allocate_mac_no_available_range_fails, treats such a
range as having no capacity and never allocates from it.
-/

/-- C5 counterexample: the scenario of
test_allocate_mac_no_available_range_fails: a single range 0..0 with no
pre-existing records fails on the very first allocation, where the claim
demands the first allocation succeed. -/
theorem c5_counterexample :
    allocate_mac_address [] [(⟨1, 0, 0⟩, 0)] 0 0
      = .error .macAddressGenerationFailure ∧
    exceptIsOk (allocate_mac_address [] [(⟨1, 0, 0⟩, 0)] 0 0) = false ∧
    capacitySpec ⟨1, 0, 0⟩ = 1 := ⟨rfl, rfl, rfl⟩

/-- C5 (amended): a range with first_address = last_address is treated
as having no spare capacity and never allocates: whatever the records
and counts, when every candidate range has equal bounds the allocation
fails immediately with the generation-failure kind. -/
theorem c5_capacity_one_never_allocates (db : List MacAddr)
    (ranges : List (MacRange × Nat)) (now ra : Nat)
    (h : ∀ p ∈ ranges, p.1.first_address = p.1.last_address) :
    allocate_mac_address db ranges now ra
      = .error .macAddressGenerationFailure := by
  have hnone : selectMacRange ranges = none := by
    unfold selectMacRange
    rw [List.find?_eq_none]
    intro p hp
    simp [macRangeAvailable, h p hp]
  unfold allocate_mac_address
  rw [hnone]

/-- C5 witness: the single range 0..0 with count 0 and an empty record
store fails with MacAddressGenerationFailure. -/
theorem c5_witness :
    allocate_mac_address [] [(⟨1, 0, 0⟩, 0)] 7 3
      = .error .macAddressGenerationFailure :=
  c5_capacity_one_never_allocates [] [(⟨1, 0, 0⟩, 0)] 7 3 (by decide)

/-- C4 (confirmed): with an empty candidate catalog, with every
candidate carrying an allocation_count equal to its capacity, and with a
selected range whose whole span is recorded and no reuse-eligible
deallocated record, the allocation fails, and in every one of these
cases with the one generation-failure kind of its variant
(MacAddressGenerationFailure for MAC, IpAddressGenerationFailure for
IP), so callers cannot tell the cases apart. -/
theorem c4_generation_failure_cases :
    (∀ (db : List MacAddr) (now ra : Nat),
      allocate_mac_address db [] now ra
        = .error .macAddressGenerationFailure) ∧
    (∀ (db : List MacAddr) (ranges : List (MacRange × Nat)) (now ra : Nat),
      (∀ p ∈ ranges, p.2 = capacitySpec p.1) →
      allocate_mac_address db ranges now ra
        = .error .macAddressGenerationFailure) ∧
    (∀ (db : List MacAddr) (ranges : List (MacRange × Nat)) (now ra : Nat)
        (rng : MacRange) (cnt : Nat),
      selectMacRange ranges = some (rng, cnt) →
      macReuseFind db rng.id now ra = none →
      (∀ v, rng.first_address ≤ v → v ≤ rng.last_address →
        ∃ a ∈ db, a.address = v) →
      allocate_mac_address db ranges now ra
        = .error .macAddressGenerationFailure) ∧
    (∀ (db : List IPAddr) (now ra port_id : Nat),
      allocate_ip_address db [] now ra port_id none
        = .error .ipAddressGenerationFailure) ∧
    (∀ (db : List IPAddr) (subnets : List (Subnet × Nat)) (now ra port_id : Nat),
      (∀ p ∈ subnets, p.2 = p.1.last_ip - p.1.first_ip + 1) →
      allocate_ip_address db subnets now ra port_id none
        = .error .ipAddressGenerationFailure) ∧
    (∀ (db : List IPAddr) (subnets : List (Subnet × Nat)) (now ra port_id : Nat)
        (s : Subnet) (cnt : Nat),
      selectSubnet subnets = some (s, cnt) →
      ipReuseFind db s.id now ra = none →
      (∀ v, s.first_ip ≤ v → v ≤ s.last_ip → ∃ a ∈ db, a.address = v) →
      allocate_ip_address db subnets now ra port_id none
        = .error .ipAddressGenerationFailure) := by
  refine ⟨fun db now ra => rfl, ?_, ?_, fun db now ra port_id => rfl, ?_, ?_⟩
  · intro db ranges now ra h
    have hnone : selectMacRange ranges = none := by
      unfold selectMacRange
      rw [List.find?_eq_none]
      intro p hp
      simp only [macRangeAvailable, h p hp, capacitySpec, decide_eq_true_eq]
      omega
    unfold allocate_mac_address
    rw [hnone]
  · intro db ranges now ra rng cnt hsel hre hocc
    have hred : allocate_mac_address db ranges now ra
        = macAllocFromRange db rng now ra := by
      unfold allocate_mac_address; rw [hsel]
    rw [hred]
    unfold macAllocFromRange
    rw [hre]
    have hnone : firstFree (db.map (fun a => a.address))
        rng.first_address rng.last_address = none := by
      apply firstFree_none
      intro v h1 h2
      obtain ⟨a, ha, hav⟩ := hocc v h1 h2
      rw [List.mem_map]
      exact ⟨a, ha, hav⟩
    rw [hnone]
  · intro db subnets now ra port_id h
    have hnone : selectSubnet subnets = none := by
      unfold selectSubnet
      rw [List.find?_eq_none]
      intro p hp
      simp only [subnetAvailable, h p hp, decide_eq_true_eq]
      omega
    unfold allocate_ip_address
    rw [hnone]
  · intro db subnets now ra port_id s cnt hsel hre hocc
    have hred : allocate_ip_address db subnets now ra port_id none
        = ipAllocFromSubnet db s now ra port_id := by
      unfold allocate_ip_address; rw [hsel]
    rw [hred]
    unfold ipAllocFromSubnet
    rw [hre]
    have hnone : firstFree (db.map (fun a => a.address))
        s.first_ip s.last_ip = none := by
      apply firstFree_none
      intro v h1 h2
      obtain ⟨a, ha, hav⟩ := hocc v h1 h2
      rw [List.mem_map]
      exact ⟨a, ha, hav⟩
    rw [hnone]

/-- C4 witness: the six failure scenarios at concrete inputs: empty MAC
catalog; a MAC range 0..3 whose count equals its capacity 4; a selected
MAC range 0..1 whose two values both hold records; and the IP twins. -/
theorem c4_witness :
    allocate_mac_address [] [] 1 2 = .error .macAddressGenerationFailure ∧
    allocate_mac_address [] [(⟨1, 0, 3⟩, 4)] 1 2
      = .error .macAddressGenerationFailure ∧
    allocate_mac_address [⟨1, 0, 1, false, none⟩, ⟨2, 1, 1, false, none⟩]
      [(⟨1, 0, 1⟩, 0)] 1 2 = .error .macAddressGenerationFailure ∧
    allocate_ip_address [] [] 1 2 3 none
      = .error .ipAddressGenerationFailure ∧
    allocate_ip_address [] [(⟨1, 0, 3, ⟨0, 30, 4⟩⟩, 4)] 1 2 3 none
      = .error .ipAddressGenerationFailure ∧
    allocate_ip_address [⟨1, 0, 1, false, none, []⟩, ⟨2, 1, 1, false, none, []⟩]
      [(⟨1, 0, 1, ⟨0, 31, 4⟩⟩, 0)] 1 2 3 none
      = .error .ipAddressGenerationFailure :=
  ⟨c4_generation_failure_cases.1 [] 1 2,
   c4_generation_failure_cases.2.1 [] [(⟨1, 0, 3⟩, 4)] 1 2 (by decide),
   c4_generation_failure_cases.2.2.1
     [⟨1, 0, 1, false, none⟩, ⟨2, 1, 1, false, none⟩] [(⟨1, 0, 1⟩, 0)] 1 2
     ⟨1, 0, 1⟩ 0 (by decide) (by decide)
     (fun v h1 h2 => by
       have h2' : v ≤ 1 := h2
       rcases Nat.lt_or_ge v 1 with h | h
       · exact ⟨⟨1, 0, 1, false, none⟩, by simp, by show (0:Nat) = v; omega⟩
       · exact ⟨⟨2, 1, 1, false, none⟩, by simp, by show (1:Nat) = v; omega⟩),
   c4_generation_failure_cases.2.2.2.1 [] 1 2 3,
   c4_generation_failure_cases.2.2.2.2.1 [] [(⟨1, 0, 3, ⟨0, 30, 4⟩⟩, 4)]
     1 2 3 (by decide),
   c4_generation_failure_cases.2.2.2.2.2
     [⟨1, 0, 1, false, none, []⟩, ⟨2, 1, 1, false, none, []⟩]
     [(⟨1, 0, 1, ⟨0, 31, 4⟩⟩, 0)] 1 2 3 ⟨1, 0, 1, ⟨0, 31, 4⟩⟩ 0
     (by decide) (by decide)
     (fun v h1 h2 => by
       have h2' : v ≤ 1 := h2
       rcases Nat.lt_or_ge v 1 with h | h
       · exact ⟨⟨1, 0, 1, false, none, []⟩, by simp, by show (0:Nat) = v; omega⟩
       · exact ⟨⟨2, 1, 1, false, none, []⟩, by simp, by show (1:Nat) = v; omega⟩)⟩

/-- C6 (confirmed): when the selected range holds a reuse-eligible
deallocated record, the allocator (either variant) returns exactly that
record as an update with the deallocated flag and timestamp cleared and
the address value unchanged, and a fresh record is created only when the
selected range holds no such record. -/
theorem c6_reuse_semantics :
    (∀ (db : List MacAddr) (ranges : List (MacRange × Nat)) (now ra : Nat)
        (rng : MacRange) (cnt : Nat) (a : MacAddr),
      selectMacRange ranges = some (rng, cnt) →
      macReuseFind db rng.id now ra = some a →
      a.deallocated = true ∧
      allocate_mac_address db ranges now ra = .ok (.updated (macClear a)) ∧
      (macClear a).address = a.address ∧
      (macClear a).deallocated = false ∧
      (macClear a).deallocated_at = none) ∧
    (∀ (db : List MacAddr) (ranges : List (MacRange × Nat)) (now ra : Nat)
        (rng : MacRange) (cnt : Nat) (a' : MacAddr),
      selectMacRange ranges = some (rng, cnt) →
      allocate_mac_address db ranges now ra = .ok (.created a') →
      macReuseFind db rng.id now ra = none) ∧
    (∀ (db : List IPAddr) (subnets : List (Subnet × Nat))
        (now ra port_id : Nat) (s : Subnet) (cnt : Nat) (a : IPAddr),
      selectSubnet subnets = some (s, cnt) →
      ipReuseFind db s.id now ra = some a →
      a.deallocated = true ∧
      allocate_ip_address db subnets now ra port_id none
        = .ok (.updated (ipClear port_id a)) ∧
      (ipClear port_id a).address = a.address ∧
      (ipClear port_id a).deallocated = false ∧
      (ipClear port_id a).deallocated_at = none) ∧
    (∀ (db : List IPAddr) (subnets : List (Subnet × Nat))
        (now ra port_id : Nat) (s : Subnet) (cnt : Nat) (a' : IPAddr),
      selectSubnet subnets = some (s, cnt) →
      allocate_ip_address db subnets now ra port_id none = .ok (.created a') →
      ipReuseFind db s.id now ra = none) := by
  refine ⟨?_, ?_, ?_, ?_⟩
  · intro db ranges now ra rng cnt a hsel hre
    have hred : allocate_mac_address db ranges now ra
        = macAllocFromRange db rng now ra := by
      unfold allocate_mac_address; rw [hsel]
    refine ⟨?_, ?_, rfl, rfl, rfl⟩
    · have hp := List.find?_some hre
      simp only [Bool.and_eq_true] at hp
      have he := hp.2
      simp only [macReuseEligible, Bool.and_eq_true] at he
      exact he.1
    · rw [hred]; unfold macAllocFromRange; rw [hre]
  · intro db ranges now ra rng cnt a' hsel h
    have hred : allocate_mac_address db ranges now ra
        = macAllocFromRange db rng now ra := by
      unfold allocate_mac_address; rw [hsel]
    rw [hred] at h
    unfold macAllocFromRange at h
    cases hre : macReuseFind db rng.id now ra with
    | some a => rw [hre] at h; simp at h
    | none => rfl
  · intro db subnets now ra port_id s cnt a hsel hre
    have hred : allocate_ip_address db subnets now ra port_id none
        = ipAllocFromSubnet db s now ra port_id := by
      unfold allocate_ip_address; rw [hsel]
    refine ⟨?_, ?_, rfl, rfl, rfl⟩
    · have hp := List.find?_some hre
      simp only [Bool.and_eq_true] at hp
      have he := hp.2
      simp only [ipReuseEligible, Bool.and_eq_true] at he
      exact he.1
    · rw [hred]; unfold ipAllocFromSubnet; rw [hre]
  · intro db subnets now ra port_id s cnt a' hsel h
    have hred : allocate_ip_address db subnets now ra port_id none
        = ipAllocFromSubnet db s now ra port_id := by
      unfold allocate_ip_address; rw [hsel]
    rw [hred] at h
    unfold ipAllocFromSubnet at h
    cases hre : ipReuseFind db s.id now ra with
    | some a => rw [hre] at h; simp at h
    | none => rfl

/-- C6 witness: a deallocated MAC record stamped at time 0 with
reuse-after 2 is resurrected at time 5 by update with its address value
kept, a fresh MAC record is created only from an empty store, and the
same holds of the IP variant. -/
theorem c6_witness :
    ((⟨1, 0, 1, true, some 0⟩ : MacAddr).deallocated = true ∧
      allocate_mac_address [⟨1, 0, 1, true, some 0⟩] [(⟨1, 0, 255⟩, 0)] 5 2
        = .ok (.updated (macClear ⟨1, 0, 1, true, some 0⟩)) ∧
      (macClear ⟨1, 0, 1, true, some 0⟩).address
        = (⟨1, 0, 1, true, some 0⟩ : MacAddr).address ∧
      (macClear ⟨1, 0, 1, true, some 0⟩).deallocated = false ∧
      (macClear ⟨1, 0, 1, true, some 0⟩).deallocated_at = none) ∧
    macReuseFind [] 1 0 0 = none ∧
    ((⟨1, 0, 1, true, some 0, []⟩ : IPAddr).deallocated = true ∧
      allocate_ip_address [⟨1, 0, 1, true, some 0, []⟩]
          [(⟨1, 0, 255, ⟨0, 24, 4⟩⟩, 0)] 5 2 7 none
        = .ok (.updated (ipClear 7 ⟨1, 0, 1, true, some 0, []⟩)) ∧
      (ipClear 7 ⟨1, 0, 1, true, some 0, []⟩).address
        = (⟨1, 0, 1, true, some 0, []⟩ : IPAddr).address ∧
      (ipClear 7 ⟨1, 0, 1, true, some 0, []⟩).deallocated = false ∧
      (ipClear 7 ⟨1, 0, 1, true, some 0, []⟩).deallocated_at = none) ∧
    ipReuseFind [] 1 0 0 = none :=
  ⟨c6_reuse_semantics.1 [⟨1, 0, 1, true, some 0⟩] [(⟨1, 0, 255⟩, 0)] 5 2
      ⟨1, 0, 255⟩ 0 ⟨1, 0, 1, true, some 0⟩ (by decide) (by decide),
   c6_reuse_semantics.2.1 [] [(⟨1, 0, 255⟩, 0)] 0 0 ⟨1, 0, 255⟩ 0
      ⟨0, 0, 1, false, none⟩ (by decide) rfl,
   c6_reuse_semantics.2.2.1 [⟨1, 0, 1, true, some 0, []⟩]
      [(⟨1, 0, 255, ⟨0, 24, 4⟩⟩, 0)] 5 2 7 ⟨1, 0, 255, ⟨0, 24, 4⟩⟩ 0
      ⟨1, 0, 1, true, some 0, []⟩ (by decide) (by decide),
   c6_reuse_semantics.2.2.2 [] [(⟨1, 0, 255, ⟨0, 24, 4⟩⟩, 0)] 0 0 7
      ⟨1, 0, 255, ⟨0, 24, 4⟩⟩ 0 ⟨0, 0, 1, false, none, [7]⟩ (by decide) rfl⟩

/-- C7 (confirmed): a requested specific IP address fails with
IpAddressGenerationFailure when no candidate subnet's CIDR contains the
requested value, however much capacity other subnets have; and every
successful call returns a record whose address value is exactly the
requested one, in the located subnet, whose CIDR contains it. -/
theorem c7_requested_address (db : List IPAddr)
    (subnets : List (Subnet × Nat)) (now ra port_id req : Nat) :
    ((∀ p ∈ subnets, netContainsAddr p.1.cidr req = false) →
      allocate_ip_address db subnets now ra port_id (some req)
        = .error .ipAddressGenerationFailure) ∧
    (∀ o, allocate_ip_address db subnets now ra port_id (some req)
        = .ok o →
      (ipOutcomeRec o).address = req ∧
      ∃ s cnt, findRequestedSubnet subnets req = some (s, cnt) ∧
        netContainsAddr s.cidr req = true ∧
        (ipOutcomeRec o).subnet_id = s.id) := by
  have hdisp : allocate_ip_address db subnets now ra port_id (some req)
      = allocate_ip_requested db subnets now ra port_id req := rfl
  constructor
  · intro h
    have hnone : findRequestedSubnet subnets req = none := by
      unfold findRequestedSubnet
      rw [List.find?_eq_none]
      intro p hp
      simp [h p hp]
    rw [hdisp]
    unfold allocate_ip_requested
    rw [hnone]
  · intro o h
    rw [hdisp] at h
    unfold allocate_ip_requested at h
    cases hfs : findRequestedSubnet subnets req with
    | none => rw [hfs] at h; simp at h
    | some p =>
      obtain ⟨s, cnt⟩ := p
      rw [hfs] at h
      have h' : ipAllocRequested db s now ra port_id req = .ok o := h
      have hcont : netContainsAddr s.cidr req = true := by
        have hp := List.find?_some hfs
        simpa using hp
      unfold ipAllocRequested at h'
      cases hru : db.find? (fun a => a.subnet_id == s.id && a.address == req
          && ipReuseEligible now ra a) with
      | some a =>
        rw [hru] at h'
        injection h' with h2
        subst h2
        have hp := List.find?_some hru
        simp only [Bool.and_eq_true, beq_iff_eq] at hp
        exact ⟨by simpa [ipClear, ipOutcomeRec] using hp.1.2,
          s, cnt, rfl, hcont, by simpa [ipClear, ipOutcomeRec] using hp.1.1⟩
      | none =>
        rw [hru] at h'
        by_cases hany : (db.any (fun a => a.subnet_id == s.id
            && a.address == req)) = true
        · rw [if_pos hany] at h'; simp at h'
        · rw [if_neg hany] at h'
          injection h' with h2
          subst h2
          exact ⟨rfl, s, cnt, rfl, hcont, rfl⟩

/-- C7 witness: requesting 0.0.0.240 with the sole candidate subnet's
CIDR 0.0.1.0/24 fails although that subnet has spare capacity, and the
successful request against CIDR 0.0.0.0/24 returns exactly 240 in that
subnet. -/
theorem c7_witness :
    allocate_ip_address [] [(⟨1, 0, 255, ⟨256, 24, 4⟩⟩, 1)] 0 0 7 (some 240)
      = .error .ipAddressGenerationFailure ∧
    ((ipOutcomeRec (.created ⟨0, 240, 1, false, none, [7]⟩)).address = 240 ∧
      ∃ s cnt, findRequestedSubnet [(⟨1, 0, 255, ⟨0, 24, 4⟩⟩, 1)] 240
          = some (s, cnt) ∧
        netContainsAddr s.cidr 240 = true ∧
        (ipOutcomeRec (.created ⟨0, 240, 1, false, none, [7]⟩)).subnet_id
          = s.id) :=
  ⟨(c7_requested_address [] [(⟨1, 0, 255, ⟨256, 24, 4⟩⟩, 1)] 0 0 7 240).1
      (by decide),
   (c7_requested_address [] [(⟨1, 0, 255, ⟨0, 24, 4⟩⟩, 1)] 0 0 7 240).2
      (.created ⟨0, 240, 1, false, none, [7]⟩) (by decide)⟩

/-- C8 (confirmed): releasing a port's addresses removes that port from
each record's owning-ports set; a record that was allocated flips its
deallocated flag to true, with the timestamp stamped, exactly when its
owning-ports set becomes empty, and stays allocated while other ports
still reference it. -/
theorem c8_ref_counted_release (now : Nat) (p : Port) (a : IPAddr)
    (hmem : a ∈ p.ip_addresses) (hda : a.deallocated = false) :
    deallocIpOne now p.id a ∈ deallocate_ip_address now p ∧
    p.id ∉ (deallocIpOne now p.id a).ports ∧
    ((deallocIpOne now p.id a).deallocated = true ↔
      (deallocIpOne now p.id a).ports = []) ∧
    ((deallocIpOne now p.id a).deallocated = true →
      (deallocIpOne now p.id a).deallocated_at = some now) ∧
    ((deallocIpOne now p.id a).ports ≠ [] →
      (deallocIpOne now p.id a).deallocated = false) := by
  refine ⟨List.mem_map_of_mem _ hmem, ?_⟩
  unfold deallocIpOne
  by_cases hemp : (a.ports.filter (fun q => q != p.id)).isEmpty = true
  · rw [if_pos hemp]
    have hnil : a.ports.filter (fun q => q != p.id) = [] := by
      simpa using hemp
    refine ⟨?_, ?_, fun _ => rfl, ?_⟩
    · simp [hnil]
    · simp [hnil]
    · intro hne; exact absurd hnil hne
  · rw [if_neg hemp]
    have hne : a.ports.filter (fun q => q != p.id) ≠ [] := by
      intro hh; exact hemp (by simp [hh])
    refine ⟨?_, ?_, ?_, fun _ => hda⟩
    · intro hin
      rw [List.mem_filter] at hin
      simp at hin
    · constructor
      · intro hd
        have hd' : a.deallocated = true := hd
        rw [hda] at hd'
        cases hd'
      · intro hp'
        exact absurd hp' hne
    · intro hd
      have hd' : a.deallocated = true := hd
      rw [hda] at hd'
      cases hd'

/-- C8 witness: releasing port 9 from an address also referenced by
port 2 leaves it allocated with port 2 still set; the conclusions of the
theorem at that input. -/
theorem c8_witness :
    deallocIpOne 3 9 ⟨1, 0, 1, false, none, [9, 2]⟩
        ∈ deallocate_ip_address 3 ⟨9, [⟨1, 0, 1, false, none, [9, 2]⟩]⟩ ∧
    9 ∉ (deallocIpOne 3 9 ⟨1, 0, 1, false, none, [9, 2]⟩).ports ∧
    ((deallocIpOne 3 9 ⟨1, 0, 1, false, none, [9, 2]⟩).deallocated = true ↔
      (deallocIpOne 3 9 ⟨1, 0, 1, false, none, [9, 2]⟩).ports = []) ∧
    ((deallocIpOne 3 9 ⟨1, 0, 1, false, none, [9, 2]⟩).deallocated = true →
      (deallocIpOne 3 9 ⟨1, 0, 1, false, none, [9, 2]⟩).deallocated_at
        = some 3) ∧
    ((deallocIpOne 3 9 ⟨1, 0, 1, false, none, [9, 2]⟩).ports ≠ [] →
      (deallocIpOne 3 9 ⟨1, 0, 1, false, none, [9, 2]⟩).deallocated
        = false) :=
  c8_ref_counted_release 3 ⟨9, [⟨1, 0, 1, false, none, [9, 2]⟩]⟩
    ⟨1, 0, 1, false, none, [9, 2]⟩ (by decide) rfl

/-- C9 (confirmed): deallocate_mac_address fails with AddressNotFound
exactly when no record carries the given address value; when the lookup
finds a record it is marked deallocated unconditionally, with no
reference counting involved, and returned. -/
theorem c9_mac_dealloc_by_value (db : List MacAddr) (address_value now : Nat) :
    ((∀ a ∈ db, a.address ≠ address_value) →
      deallocate_mac_address db address_value now
        = .error .addressNotFound) ∧
    (∀ a, db.find? (fun x => x.address == address_value) = some a →
      a ∈ db ∧ a.address = address_value ∧
      deallocate_mac_address db address_value now
        = .ok { a with deallocated := true, deallocated_at := some now }) ∧
    ((∃ a ∈ db, a.address = address_value) →
      ∃ b, deallocate_mac_address db address_value now = .ok b ∧
        b.deallocated = true ∧ b.deallocated_at = some now) := by
  refine ⟨?_, ?_, ?_⟩
  · intro h
    have hnone : db.find? (fun x => x.address == address_value) = none := by
      rw [List.find?_eq_none]
      intro a ha
      simp [h a ha]
    unfold deallocate_mac_address
    rw [hnone]
  · intro a hf
    refine ⟨List.mem_of_find?_eq_some hf, by simpa using List.find?_some hf, ?_⟩
    unfold deallocate_mac_address
    rw [hf]
  · rintro ⟨a, ha, hav⟩
    have hs : (db.find? (fun x => x.address == address_value)).isSome := by
      rw [List.find?_isSome]
      exact ⟨a, ha, by simp [hav]⟩
    obtain ⟨b, hb⟩ := Option.isSome_iff_exists.mp hs
    refine ⟨{ b with deallocated := true, deallocated_at := some now },
      ?_, rfl, rfl⟩
    unfold deallocate_mac_address
    rw [hb]

/-- C9 witness: with one record at value 5, deallocating value 9 fails
with AddressNotFound, deallocating value 5 marks that record, and the
existence form returns a record flagged deallocated. -/
theorem c9_witness :
    deallocate_mac_address [⟨1, 5, 1, false, none⟩] 9 4
      = .error .addressNotFound ∧
    (⟨1, 5, 1, false, none⟩ : MacAddr) ∈ [⟨1, 5, 1, false, none⟩] ∧
      (⟨1, 5, 1, false, none⟩ : MacAddr).address = 5 ∧
      deallocate_mac_address [⟨1, 5, 1, false, none⟩] 5 4
        = .ok ⟨1, 5, 1, true, some 4⟩ :=
  ⟨(c9_mac_dealloc_by_value [⟨1, 5, 1, false, none⟩] 9 4).1 (by decide),
   (c9_mac_dealloc_by_value [⟨1, 5, 1, false, none⟩] 5 4).2.1
      ⟨1, 5, 1, false, none⟩ (by decide)⟩
